import Mathlib

/-!
Shallow embedding of the scoring pipeline of `umami.py` (horse-race
expected-value tool).  Numeric cells are modelled as rationals; the
pandas float semantics relevant to the claims (NaN from failed
coercion, division of a series by its sum, IEEE division by zero) are
made explicit through `Option ℚ` and the extended value type `FVal`.
-/

namespace Umami

/-! ### Probability normalizer (`normalize`, umami.py lines 28-30) -/

/-- `normalize(series)`: `total = series.sum(); return series / total if
total > 0 else series`.  Element-wise division of the series by its sum
when the sum is strictly positive, identity otherwise. -/
def normalize (s : List ℚ) : List ℚ :=
  let total := s.sum
  if total > 0 then s.map (fun x => x / total) else s

theorem normalize_of_pos {s : List ℚ} (h : 0 < s.sum) :
    normalize s = s.map (fun x => x / s.sum) := by
  simp [normalize, h]

theorem normalize_of_nonpos {s : List ℚ} (h : s.sum ≤ 0) :
    normalize s = s := by
  simp [normalize, not_lt.mpr h]

theorem sum_map_div (s : List ℚ) (t : ℚ) :
    (s.map (fun x => x / t)).sum = s.sum / t := by
  induction s with
  | nil => simp
  | cons a l ih => simp [ih, add_div]

theorem normalize_sum_of_pos {s : List ℚ} (h : 0 < s.sum) :
    (normalize s).sum = 1 := by
  rw [normalize_of_pos h, sum_map_div, div_self (ne_of_gt h)]

/-- C1: if the sum of composite scores is strictly positive the
normalizer divides each entry by the sum (and the outputs sum to 1);
if the sum is zero or negative it returns the input unchanged. -/
theorem normalize_spec (s : List ℚ) :
    (0 < s.sum →
      normalize s = s.map (fun x => x / s.sum) ∧ (normalize s).sum = 1) ∧
    (s.sum ≤ 0 → normalize s = s) := by
  refine ⟨fun h => ⟨normalize_of_pos h, normalize_sum_of_pos h⟩,
    fun h => normalize_of_nonpos h⟩

theorem normalize_spec_witness :
    (0 < ([1, 3] : List ℚ).sum ∧
      normalize [1, 3] = [1 / 4, 3 / 4] ∧ (normalize [1, 3]).sum = 1) ∧
    (([0, -2] : List ℚ).sum ≤ 0 ∧ normalize [0, -2] = [0, -2]) := by
  have h1 : (0 : ℚ) < ([1, 3] : List ℚ).sum := by norm_num
  have h2 : ([0, -2] : List ℚ).sum ≤ 0 := by norm_num
  refine ⟨⟨h1, ?_, ((normalize_spec [1, 3]).1 h1).2⟩,
    h2, (normalize_spec [0, -2]).2 h2⟩
  have := ((normalize_spec [1, 3]).1 h1).1
  rw [this]
  norm_num

/-! ### Extended values: IEEE-float behaviour of pandas cells

`pd.to_numeric(..., errors="coerce")` turns unparseable cells into NaN;
we model a coerced cell as `Option ℚ` (`none` = NaN).  Arithmetic on
series can then produce infinities and NaNs, modelled by `FVal`. -/

/-- An IEEE-style extended value: a finite rational, `+inf`, `-inf`, or
NaN.  Mirrors the float values a pandas numeric column can hold. -/
inductive FVal where
  | num (q : ℚ)
  | inf
  | neginf
  | nan
deriving DecidableEq, Repr

/-- IEEE addition on extended values (NaN absorbs; opposite infinities
give NaN). -/
def FVal.add : FVal → FVal → FVal
  | .nan, _ => .nan
  | _, .nan => .nan
  | .inf, .neginf => .nan
  | .neginf, .inf => .nan
  | .inf, _ => .inf
  | _, .inf => .inf
  | .neginf, _ => .neginf
  | _, .neginf => .neginf
  | .num a, .num b => .num (a + b)

/-- IEEE multiplication on extended values (NaN absorbs; `inf * 0 = NaN`,
signs propagate). -/
def FVal.mul : FVal → FVal → FVal
  | .nan, _ => .nan
  | _, .nan => .nan
  | .num a, .num b => .num (a * b)
  | .inf, .num b => if 0 < b then .inf else if b < 0 then .neginf else .nan
  | .num a, .inf => if 0 < a then .inf else if a < 0 then .neginf else .nan
  | .neginf, .num b => if 0 < b then .neginf else if b < 0 then .inf else .nan
  | .num a, .neginf => if 0 < a then .neginf else if a < 0 then .inf else .nan
  | .inf, .inf => .inf
  | .inf, .neginf => .neginf
  | .neginf, .inf => .neginf
  | .neginf, .neginf => .inf

/-! ### Score composer (umami.py lines 66-107) -/

/-- `df["人気スコア"] = 1 / df["単勝オッズ"]` (line 71), where the odds
column was produced by `pd.to_numeric(..., errors="coerce")` (line 66).
IEEE division: `1 / NaN = NaN`, `1 / 0.0 = +inf`, otherwise `1 / q`. -/
def popScore : Option ℚ → FVal
  | none => .nan
  | some q => if q = 0 then .inf else .num (1 / q)

/-- `df["複勝率スコア"]` (lines 72-73): map the entrant name through the
rate table (`none` for a missing name), coerce to numeric (`none` for a
non-numeric cell), then `fillna(0.0)`.  The table is a list of
(name, coerced place-rate cell) pairs; `find?` takes the first match,
as `dict` lookup on a unique index does. -/
def rateScore (rateMap : List (String × Option ℚ)) (name : String) : ℚ :=
  match rateMap.find? (fun p => p.1 == name) with
  | some p => p.2.getD 0
  | none => 0

/-- `df["補正スコア"]` (line 106): sum of the per-field correction
values chosen from each field's discrete set. -/
def corrScore (corrs : List ℚ) : ℚ := corrs.sum

/-- `df["総合スコア"] = 人気スコア*0.5 + 複勝率スコア*0.3 + 補正スコア*0.2`
(line 107), computed with IEEE series arithmetic; the place-rate and
correction scores are always finite after `fillna`. -/
def compositeScore (pop : FVal) (rate corr : ℚ) : FVal :=
  ((pop.mul (.num (1/2))).add ((FVal.num rate).mul (.num (3/10)))).add
    ((FVal.num corr).mul (.num (1/5)))

/-- One row of the race table after column reconciliation: the entrant
name and the coerced win-odds cell (`none` = NaN). -/
structure RaceRow where
  name : String
  odds : Option ℚ
deriving DecidableEq, Repr

/-- The composite-score column: one `compositeScore` per race row, with
that row's correction selections. -/
def compositeColumn (rows : List RaceRow) (rateMap : List (String × Option ℚ))
    (corrs : List (List ℚ)) : List FVal :=
  (rows.zip corrs).map (fun rc =>
    compositeScore (popScore rc.1.odds) (rateScore rateMap rc.1.name) (corrScore rc.2))

/-- Extract a series of finite values; `none` if any entry is ±inf/NaN. -/
def finiteSeries : List FVal → Option (List ℚ)
  | [] => some []
  | .num q :: l => (finiteSeries l).map (fun t => q :: t)
  | .inf :: _ => none
  | .neginf :: _ => none
  | .nan :: _ => none

/-- `df["確率"] = normalize(df["総合スコア"])` (line 108) on a race whose
composite column is finite (on finite series pandas arithmetic agrees
with exact rational arithmetic). -/
def raceProbColumn (rows : List RaceRow) (rateMap : List (String × Option ℚ))
    (corrs : List (List ℚ)) : Option (List ℚ) :=
  (finiteSeries (compositeColumn rows rateMap corrs)).map normalize

/-- C2: evaluation of the code at the inputs the claim is about.  For a
win-odds cell of `0` the code computes `1 / 0.0 = +inf`, and for a
missing (non-numeric) cell it computes `1 / NaN = NaN`; in neither case
is the popularity score `0` as the claim and spec require. -/
theorem popScore_zero_or_missing_not_zero :
    popScore (some 0) = FVal.inf ∧ popScore none = FVal.nan ∧
    popScore (some 0) ≠ FVal.num 0 ∧ popScore none ≠ FVal.num 0 := by
  refine ⟨rfl, rfl, ?_, ?_⟩ <;> decide

/-- Race table of the spec's worked example: A with win odds 2.0, B with
win odds 4.0. -/
def exampleRows : List RaceRow := [⟨"A", some 2⟩, ⟨"B", some 4⟩]

/-- Place-rate table of the worked example: `{"A": 0.6, "B": 0.2}`. -/
def exampleRateMap : List (String × Option ℚ) := [("A", some (3/5)), ("B", some (1/5))]

/-- Corrections of the worked example: all four fields at 0 for both. -/
def exampleCorrs : List (List ℚ) := [[0, 0, 0, 0], [0, 0, 0, 0]]

/-- `df["単勝期待値"] = df["単勝オッズ"] * df["確率"]` (line 112),
per row. -/
def winExpValue (odds prob : ℚ) : ℚ := odds * prob

/-- C3: the composite score blends the three sub-scores with the fixed
weights 0.5 / 0.3 / 0.2, and on the worked example (A: odds 2.0, rate
0.6; B: odds 4.0, rate 0.2; corrections 0) the composite scores are
[0.43, 0.185], the probabilities are 86/123 ≈ 0.699 and 37/123 ≈ 0.301,
and A's win expected value is 172/123 ≈ 1.398. -/
theorem compositeScore_weights_and_example :
    (∀ p r c : ℚ, compositeScore (.num p) r c = .num (0.5 * p + 0.3 * r + 0.2 * c)) ∧
    compositeColumn exampleRows exampleRateMap exampleCorrs =
      [.num (43/100), .num (37/200)] ∧
    raceProbColumn exampleRows exampleRateMap exampleCorrs =
      some [86/123, 37/123] ∧
    |(86/123 : ℚ) - 0.699| < 0.001 ∧ |(37/123 : ℚ) - 0.301| < 0.001 ∧
    winExpValue 2 (86/123) = 172/123 ∧ |(172/123 : ℚ) - 1.398| < 0.001 := by
  refine ⟨fun p r c => ?_, ?_, ?_, ?_, ?_, ?_, ?_⟩
  · simp only [compositeScore, FVal.mul, FVal.add]
    norm_num
    ring
  · simp only [compositeColumn, exampleRows, exampleRateMap, exampleCorrs,
      List.zip, List.zipWith, List.map, compositeScore, popScore, rateScore,
      corrScore, List.find?, show ("A" == "A") = true from rfl,
      show ("A" == "B") = false from rfl, show ("B" == "B") = true from rfl,
      FVal.mul, FVal.add]
    norm_num
  · simp only [raceProbColumn, compositeColumn, exampleRows, exampleRateMap,
      exampleCorrs, List.zip, List.zipWith, List.map, compositeScore, popScore,
      rateScore, corrScore, List.find?, show ("A" == "A") = true from rfl,
      show ("A" == "B") = false from rfl, show ("B" == "B") = true from rfl,
      FVal.mul, FVal.add]
    norm_num [finiteSeries, normalize]
  · rw [abs_sub_lt_iff]; norm_num
  · rw [abs_sub_lt_iff]; norm_num
  · norm_num [winExpValue]
  · rw [abs_sub_lt_iff]; norm_num

/-- Race table of the C4 counterexample: A with odds 2.0, B with odds
1000.0. -/
def cexRows : List RaceRow := [⟨"A", some 2⟩, ⟨"B", some 1000⟩]

/-- Rate table of the C4 counterexample: only A has a place-rate. -/
def cexRateMap : List (String × Option ℚ) := [("A", some (3/5))]

/-- Corrections of the C4 counterexample: B gets the minimum of every
field's discrete set (-0.10, -0.10, -0.05, -0.05). -/
def cexCorrs : List (List ℚ) := [[0, 0, 0, 0], [-1/10, -1/10, -1/20, -1/20]]

/-- C4 counterexample: with corrections drawn from the allowed sets, the
composite column is [0.43, -0.0595], whose total 0.3705 is strictly
positive, yet B's probability -119/741 is negative — refuting the claim
that every probability is non-negative whenever the total is positive. -/
theorem probability_nonneg_counterexample :
    compositeColumn cexRows cexRateMap cexCorrs =
      [.num (43/100), .num (-119/2000)] ∧
    (0 : ℚ) < 43/100 + -119/2000 ∧
    raceProbColumn cexRows cexRateMap cexCorrs = some [860/741, -119/741] ∧
    (-119/741 : ℚ) < 0 := by
  refine ⟨?_, by norm_num, ?_, by norm_num⟩
  · simp only [compositeColumn, cexRows, cexRateMap, cexCorrs,
      List.zip, List.zipWith, List.map, compositeScore, popScore, rateScore,
      corrScore, List.find?, show ("A" == "A") = true from rfl,
      show ("A" == "B") = false from rfl, FVal.mul, FVal.add]
    norm_num
  · simp only [raceProbColumn, compositeColumn, cexRows, cexRateMap, cexCorrs,
      List.zip, List.zipWith, List.map, compositeScore, popScore, rateScore,
      corrScore, List.find?, show ("A" == "A") = true from rfl,
      show ("A" == "B") = false from rfl, FVal.mul, FVal.add]
    norm_num [finiteSeries, normalize]

theorem mem_zip_map {α β : Type} (f : α → β) (l : List α) :
    ∀ p ∈ l.zip (l.map f), p.2 = f p.1 := by
  induction l with
  | nil => simp
  | cons a t ih =>
    intro p hp
    rw [List.map_cons, List.zip_cons_cons, List.mem_cons] at hp
    rcases hp with hp | hp
    · rw [hp]
    · exact ih p hp

/-- C4 amended: whenever the composite total is strictly positive the
probabilities sum to 1, and each entrant's probability is non-negative
exactly when its composite score is non-negative (so an entrant whose
composite score is negative receives a negative probability). -/
theorem normalize_sum_one_and_sign (v : List ℚ) (h : 0 < v.sum) :
    (normalize v).sum = 1 ∧
    ∀ p ∈ v.zip (normalize v), (0 ≤ p.2 ↔ 0 ≤ p.1) := by
  refine ⟨normalize_sum_of_pos h, ?_⟩
  intro p hp
  rw [normalize_of_pos h] at hp
  rw [mem_zip_map (fun x => x / v.sum) v p hp]
  constructor
  · intro hq
    by_contra hneg
    exact absurd hq (not_le.mpr (div_neg_of_neg_of_pos (not_le.mp hneg) h))
  · intro hq
    exact div_nonneg hq h.le

theorem normalize_sum_one_and_sign_witness :
    (0 : ℚ) < ([1, 2] : List ℚ).sum ∧
    (normalize [1, 2]).sum = 1 ∧
    ∀ p ∈ ([1, 2] : List ℚ).zip (normalize [1, 2]), (0 ≤ p.2 ↔ 0 ≤ p.1) := by
  have h : (0 : ℚ) < ([1, 2] : List ℚ).sum := by norm_num
  exact ⟨h, normalize_sum_one_and_sign [1, 2] h⟩

/-! ### Pair synthesizer (umami.py lines 158-183) -/

/-- `itertools.combinations(horses, 2)` (line 161): for each element, pair
it with every later element, in input order. -/
def combinations2 {α : Type} : List α → List (α × α)
  | [] => []
  | x :: xs => xs.map (fun y => (x, y)) ++ combinations2 xs

theorem mem_combinations2 {α : Type} {p : α × α} :
    ∀ {l : List α}, p ∈ combinations2 l → p.1 ∈ l ∧ p.2 ∈ l := by
  intro l
  induction l with
  | nil => simp [combinations2]
  | cons x xs ih =>
    intro h
    rw [combinations2, List.mem_append] at h
    rcases h with h | h
    · obtain ⟨y, hy, heq⟩ := List.mem_map.mp h
      rw [← heq]
      exact ⟨List.mem_cons_self x xs, List.mem_cons_of_mem x hy⟩
    · exact ⟨List.mem_cons_of_mem x (ih h).1, List.mem_cons_of_mem x (ih h).2⟩

theorem combinations2_length {α : Type} (l : List α) :
    (combinations2 l).length = l.length.choose 2 := by
  induction l with
  | nil => simp [combinations2]
  | cons x xs ih =>
    simp only [combinations2, List.length_append, List.length_map, ih,
      List.length_cons]
    rw [Nat.choose_succ_succ, Nat.choose_one_right]

theorem combinations2_ne {α : Type} :
    ∀ {l : List α}, l.Nodup → ∀ p ∈ combinations2 l, p.1 ≠ p.2 := by
  intro l
  induction l with
  | nil => simp [combinations2]
  | cons x xs ih =>
    intro hnd p hp
    obtain ⟨hx, hxs⟩ := List.nodup_cons.mp hnd
    rw [combinations2, List.mem_append] at hp
    rcases hp with hp | hp
    · obtain ⟨y, hy, heq⟩ := List.mem_map.mp hp
      rw [← heq]
      show x ≠ y
      intro hxy
      exact hx (by rw [hxy]; exact hy)
    · exact ih hxs p hp

theorem combinations2_antisymm {α : Type} :
    ∀ {l : List α}, l.Nodup → ∀ a b,
      (a, b) ∈ combinations2 l → (b, a) ∉ combinations2 l := by
  intro l
  induction l with
  | nil => simp [combinations2]
  | cons x xs ih =>
    intro hnd a b hab hba
    obtain ⟨hx, hxs⟩ := List.nodup_cons.mp hnd
    rw [combinations2, List.mem_append] at hab hba
    rcases hab with hab | hab
    · obtain ⟨y, hy, heq⟩ := List.mem_map.mp hab
      injection heq with hax hby
      subst hax
      subst hby
      rcases hba with hba | hba
      · obtain ⟨z, hz, heq'⟩ := List.mem_map.mp hba
        injection heq' with h1 h2
        exact hx (by rw [h1]; exact hy)
      · exact hx (mem_combinations2 hba).2
    · rcases hba with hba | hba
      · obtain ⟨z, hz, heq'⟩ := List.mem_map.mp hba
        injection heq' with h1 h2
        exact hx (by rw [h1]; exact (mem_combinations2 hab).2)
      · exact ih hxs a b hab hba

theorem combinations2_complete {α : Type} :
    ∀ {l : List α}, ∀ a b, a ∈ l → b ∈ l → a ≠ b →
      (a, b) ∈ combinations2 l ∨ (b, a) ∈ combinations2 l := by
  intro l
  induction l with
  | nil => simp
  | cons x xs ih =>
    intro a b ha hb hab
    rw [combinations2]
    rcases List.mem_cons.mp ha with rfl | ha'
    · rcases List.mem_cons.mp hb with rfl | hb'
      · exact absurd rfl hab
      · exact Or.inl (List.mem_append_left _ (List.mem_map.mpr ⟨b, hb', rfl⟩))
    · rcases List.mem_cons.mp hb with rfl | hb'
      · exact Or.inr (List.mem_append_left _ (List.mem_map.mpr ⟨a, ha', rfl⟩))
      · rcases ih a b ha' hb' hab with h | h
        · exact Or.inl (List.mem_append_right _ h)
        · exact Or.inr (List.mem_append_right _ h)

theorem combinations2_nodup {α : Type} :
    ∀ {l : List α}, l.Nodup → (combinations2 l).Nodup := by
  intro l
  induction l with
  | nil => simp [combinations2]
  | cons x xs ih =>
    intro hnd
    obtain ⟨hx, hxs⟩ := List.nodup_cons.mp hnd
    rw [combinations2]
    refine List.Nodup.append (hxs.map ?_) (ih hxs) ?_
    · intro a b h
      exact congrArg Prod.snd h
    · intro p hp hp'
      obtain ⟨y, hy, heq⟩ := List.mem_map.mp hp
      rw [← heq] at hp'
      exact hx (mem_combinations2 hp').1

/-- Probability lookup (lines 171-175): `df[df["馬名"] == h]["確率"]` takes
the rows whose name matches and `values[0]` takes the first one; an empty
selection yields `0.0`. -/
def lookupProb (tbl : List (String × ℚ)) (name : String) : ℚ :=
  match tbl.find? (fun p => p.1 == name) with
  | some p => p.2
  | none => 0

/-- The pair table (lines 161-177): one row per 2-combination, carrying
`pair_prob = prob1 * prob2 * 2`. -/
def pairRows (tbl : List (String × ℚ)) (horses : List String) :
    List ((String × String) × ℚ) :=
  (combinations2 horses).map
    (fun h => (h, lookupProb tbl h.1 * lookupProb tbl h.2 * 2))

theorem lookupProb_eq_zero {tbl : List (String × ℚ)} {n : String}
    (h : ∀ q ∈ tbl, q.1 ≠ n) : lookupProb tbl n = 0 := by
  rw [lookupProb, List.find?_eq_none.mpr]
  intro q hq
  exact fun hbeq => h q hq (by simpa using hbeq)

/-- C5: over a duplicate-free entrant list the pair synthesizer yields
exactly `n choose 2` pairwise-distinct pairs, never a self-pair, never
both orderings of the same pair, covers every unordered pair of distinct
entrants, assigns each pair `prob(A) * prob(B) * 2`, and a name absent
from the probability table contributes probability 0. -/
theorem pairRows_spec (horses : List String) (tbl : List (String × ℚ))
    (hnd : horses.Nodup) :
    (combinations2 horses).length = horses.length.choose 2 ∧
    (combinations2 horses).Nodup ∧
    (∀ p ∈ combinations2 horses, p.1 ∈ horses ∧ p.2 ∈ horses ∧ p.1 ≠ p.2) ∧
    (∀ a b, (a, b) ∈ combinations2 horses → (b, a) ∉ combinations2 horses) ∧
    (∀ a b, a ∈ horses → b ∈ horses → a ≠ b →
      (a, b) ∈ combinations2 horses ∨ (b, a) ∈ combinations2 horses) ∧
    (∀ r ∈ pairRows tbl horses,
      r.2 = lookupProb tbl r.1.1 * lookupProb tbl r.1.2 * 2) ∧
    (∀ n, (∀ q ∈ tbl, q.1 ≠ n) → lookupProb tbl n = 0) := by
  refine ⟨combinations2_length horses, combinations2_nodup hnd,
    fun p hp => ⟨(mem_combinations2 hp).1, (mem_combinations2 hp).2,
      combinations2_ne hnd p hp⟩,
    combinations2_antisymm hnd, combinations2_complete, ?_,
    fun n hn => lookupProb_eq_zero hn⟩
  intro r hr
  obtain ⟨h, hh, heq⟩ := List.mem_map.mp hr
  rw [← heq]

theorem pairRows_spec_witness :
    (["A", "B", "C"] : List String).Nodup ∧
    ((combinations2 ["A", "B", "C"]).length = 3 ∧
      combinations2 ["A", "B", "C"] = [("A", "B"), ("A", "C"), ("B", "C")] ∧
      (∀ r ∈ pairRows [("A", 7/10), ("B", 3/10)] ["A", "B", "C"],
        r.2 = lookupProb [("A", 7/10), ("B", 3/10)] r.1.1 *
          lookupProb [("A", 7/10), ("B", 3/10)] r.1.2 * 2) ∧
      lookupProb [("A", 7/10), ("B", 3/10)] "C" = 0) := by
  have hnd : (["A", "B", "C"] : List String).Nodup := by decide
  have h := pairRows_spec ["A", "B", "C"] [("A", 7/10), ("B", 3/10)] hnd
  refine ⟨hnd, h.1, rfl, h.2.2.2.2.2.1, ?_⟩
  refine (h.2.2.2.2.2.2) "C" ?_
  intro q hq
  simp only [List.mem_cons, List.not_mem_nil, or_false] at hq
  rcases hq with rfl | rfl <;> decide

/-! ### Manually entered odds (umami.py lines 145-155, 167-183) -/

/-- `t_exp = tan_input * row["確率"] if tan_input > 0 else 0` (line 151);
`f_exp` (line 152) has the same shape. -/
def t_exp (tan_input prob : ℚ) : ℚ :=
  if tan_input > 0 then tan_input * prob else 0

/-- `uma_exp = umaren_odds * pair_prob if umaren_odds > 0 else 0`
(line 179); `wide_exp` (line 180) has the same shape. -/
def uma_exp (odds pair_prob : ℚ) : ℚ :=
  if odds > 0 then odds * pair_prob else 0

/-- Modelled from the spec: expected payout = expected value × stake
(§4.5).  The manual-odds section (⑥) and the pair section (⑦) of the
code display expected values only and derive no payout column from
them; the payout simulator (⑤, line 134) multiplies an expected-value
column by the stake in exactly this way. -/
def manualPayout (expValue stake : ℚ) : ℚ := expValue * stake

/-- C6: a manually entered odds value that is 0 or negative yields
expected value 0 — for single-entrant and for pair bets — and hence
expected payout 0, regardless of the probability and the stake. -/
theorem manual_odds_nonpos_zero (odds prob jointProb stake : ℚ)
    (h : odds ≤ 0) :
    t_exp odds prob = 0 ∧ uma_exp odds jointProb = 0 ∧
    manualPayout (t_exp odds prob) stake = 0 ∧
    manualPayout (uma_exp odds jointProb) stake = 0 := by
  have h1 : t_exp odds prob = 0 := by simp [t_exp, not_lt.mpr h]
  have h2 : uma_exp odds jointProb = 0 := by simp [uma_exp, not_lt.mpr h]
  exact ⟨h1, h2, by rw [h1, manualPayout, zero_mul],
    by rw [h2, manualPayout, zero_mul]⟩

theorem manual_odds_nonpos_zero_witness :
    (0 : ℚ) ≤ 0 ∧
    (t_exp 0 (1/2) = 0 ∧ uma_exp 0 (1/3) = 0 ∧
      manualPayout (t_exp 0 (1/2)) 100 = 0 ∧
      manualPayout (uma_exp 0 (1/3)) 100 = 0) :=
  ⟨le_refl 0, manual_odds_nonpos_zero 0 (1/2) (1/3) 100 (le_refl 0)⟩

/-! ### Column reconciliation (umami.py lines 61-66) -/

/-- `odds_candidates = ["オッズ", "単勝", "単勝オッズ"]` (line 61). -/
def odds_candidates : List String := ["オッズ", "単勝", "単勝オッズ"]

/-- `odds_col = next((col for col in odds_candidates if col in
race_df.columns), None)` (line 62): the first candidate present among the
race table's columns. -/
def findOddsCol (cols : List String) : Option String :=
  odds_candidates.find? (fun c => cols.contains c)

/-- Lines 63-65: `None` triggers `st.error(...)` and `st.stop()` — the
pipeline aborts with a user-facing missing-column message. -/
def oddsColStage (cols : List String) : Except String String :=
  match findOddsCol cols with
  | some c => .ok c
  | none => .error "⚠️ 出走表に『オッズ』または『単勝』というカラムが見つかりません。"

/-- C7: the odds column is located by checking the aliases in the fixed
priority order オッズ, 単勝, 単勝オッズ, taking the first one present;
if none is present the stage fails with the user-facing missing-column
error and produces no column. -/
theorem findOddsCol_priority (cols : List String) :
    ("オッズ" ∈ cols → findOddsCol cols = some "オッズ") ∧
    ("オッズ" ∉ cols → "単勝" ∈ cols → findOddsCol cols = some "単勝") ∧
    ("オッズ" ∉ cols → "単勝" ∉ cols → "単勝オッズ" ∈ cols →
      findOddsCol cols = some "単勝オッズ") ∧
    ("オッズ" ∉ cols → "単勝" ∉ cols → "単勝オッズ" ∉ cols →
      findOddsCol cols = none ∧
      oddsColStage cols =
        .error "⚠️ 出走表に『オッズ』または『単勝』というカラムが見つかりません。") := by
  refine ⟨fun h1 => ?_, fun h1 h2 => ?_, fun h1 h2 h3 => ?_, fun h1 h2 h3 => ?_⟩
  · simp [findOddsCol, odds_candidates, List.find?, h1]
  · simp [findOddsCol, odds_candidates, List.find?, h1, h2]
  · simp [findOddsCol, odds_candidates, List.find?, h1, h2, h3]
  · have hn : findOddsCol cols = none := by
      simp [findOddsCol, odds_candidates, List.find?, h1, h2, h3]
    exact ⟨hn, by rw [oddsColStage, hn]⟩

theorem findOddsCol_priority_witness :
    ("オッズ" ∈ (["馬名", "オッズ", "単勝"] : List String) ∧
      findOddsCol ["馬名", "オッズ", "単勝"] = some "オッズ") ∧
    ("オッズ" ∉ (["馬名", "単勝"] : List String) ∧
      "単勝" ∈ (["馬名", "単勝"] : List String) ∧
      findOddsCol ["馬名", "単勝"] = some "単勝") ∧
    ("オッズ" ∉ (["馬名"] : List String) ∧ "単勝" ∉ (["馬名"] : List String) ∧
      "単勝オッズ" ∉ (["馬名"] : List String) ∧
      findOddsCol ["馬名"] = none ∧
      oddsColStage ["馬名"] =
        .error "⚠️ 出走表に『オッズ』または『単勝』というカラムが見つかりません。") := by
  have w1 := (findOddsCol_priority ["馬名", "オッズ", "単勝"]).1 (by decide)
  have w2 := (findOddsCol_priority ["馬名", "単勝"]).2.1 (by decide) (by decide)
  have w3 := (findOddsCol_priority ["馬名"]).2.2.2 (by decide) (by decide) (by decide)
  exact ⟨⟨by decide, w1⟩, ⟨by decide, by decide, w2⟩,
    ⟨by decide, by decide, by decide, w3.1, w3.2⟩⟩

/-! ### Table loader (umami.py lines 7-25 and 52-58)

The uploaded file object is a byte stream with a current position;
`chardet` and `pd.read_csv` are external collaborators, modelled as
arbitrary functions supplied as parameters: `detector` maps the bytes fed
to the detector to an encoding name, and `read_csv enc sep bytes` either
parses the bytes readable from the current position or fails. -/

/-- An uploaded file object: its bytes and the current read position. -/
structure ByteStream where
  data : List Nat
  pos : Nat
deriving DecidableEq, Repr

/-- `file_obj.seek(0)`. -/
def seek0 (s : ByteStream) : ByteStream := { s with pos := 0 }

/-- The bytes a reader consumes from the current position. -/
def remaining (s : ByteStream) : List Nat := s.data.drop s.pos

/-- `detect_encoding` (lines 7-16): seek to 0, feed the lines to the
detector (consuming the stream), seek to 0 again, and return the
detector's result together with the rewound stream. -/
def detect_encoding (detector : List Nat → String) (s : ByteStream) :
    String × ByteStream :=
  let s1 := seek0 s
  let s2 := { s1 with pos := s1.data.length }
  (detector (remaining s1), seek0 s2)

/-- `safe_read_csv` (lines 19-25): detect the encoding, try
comma-delimited parsing; on any exception seek to 0 and retry with tab
delimiting and the same encoding; a failure of the retry propagates. -/
def safe_read_csv {T : Type} (detector : List Nat → String)
    (read_csv : String → String → List Nat → Except String T)
    (s : ByteStream) : Except String T :=
  match detect_encoding detector s with
  | (enc, s1) =>
    match read_csv enc "," (remaining s1) with
    | .ok t => .ok t
    | .error _ => read_csv enc "\t" (remaining (seek0 s1))

/-- Lines 52-58: read both uploads inside one `try`; any exception `e`
becomes the user-facing load error and the pipeline stops, producing no
table at all (the second file is not even read when the first fails). -/
def loadTables {T : Type} (detector : List Nat → String)
    (read_csv : String → String → List Nat → Except String T)
    (race rate : ByteStream) : Except String (T × T) :=
  match safe_read_csv detector read_csv race with
  | .error e => .error ("CSVの読み込みに失敗しました：" ++ e)
  | .ok a =>
    match safe_read_csv detector read_csv rate with
    | .error e => .error ("CSVの読み込みに失敗しました：" ++ e)
    | .ok b => .ok (a, b)

/-- C8: detection rewinds the stream (position 0 before and after, data
untouched) and the encoding is computed from the whole stream; parsing
tries comma first with the detected encoding, falls back to tab on
failure, and if both fail the load error carries the underlying cause;
the caller turns it into the user-facing message and produces no table
(an `ok` result requires both files to have parsed). -/
theorem safe_read_csv_spec {T : Type} (detector : List Nat → String)
    (read_csv : String → String → List Nat → Except String T)
    (s race rate : ByteStream) :
    ((detect_encoding detector s).2.pos = 0 ∧
      (detect_encoding detector s).2.data = s.data ∧
      (detect_encoding detector s).1 = detector s.data) ∧
    (∀ t, read_csv (detector s.data) "," s.data = Except.ok t →
      safe_read_csv detector read_csv s = Except.ok t) ∧
    (∀ e t, read_csv (detector s.data) "," s.data = Except.error e →
      read_csv (detector s.data) "\t" s.data = Except.ok t →
      safe_read_csv detector read_csv s = Except.ok t) ∧
    (∀ e e', read_csv (detector s.data) "," s.data = Except.error e →
      read_csv (detector s.data) "\t" s.data = Except.error e' →
      safe_read_csv detector read_csv s = Except.error e') ∧
    (∀ e, safe_read_csv detector read_csv race = Except.error e →
      loadTables detector read_csv race rate =
        Except.error ("CSVの読み込みに失敗しました：" ++ e)) ∧
    (∀ a e, safe_read_csv detector read_csv race = Except.ok a →
      safe_read_csv detector read_csv rate = Except.error e →
      loadTables detector read_csv race rate =
        Except.error ("CSVの読み込みに失敗しました：" ++ e)) ∧
    (∀ r, loadTables detector read_csv race rate = Except.ok r →
      safe_read_csv detector read_csv race = Except.ok r.1 ∧
      safe_read_csv detector read_csv rate = Except.ok r.2) := by
  have hrem : remaining (detect_encoding detector s).2 = s.data := by
    simp [detect_encoding, remaining, seek0]
  refine ⟨⟨rfl, rfl, by simp [detect_encoding, remaining, seek0]⟩,
    fun t h => ?_, fun e t h1 h2 => ?_, fun e e' h1 h2 => ?_,
    fun e h => ?_, fun a e h1 h2 => ?_, fun r h => ?_⟩
  · simp only [safe_read_csv]
    rw [show detect_encoding detector s =
      ((detect_encoding detector s).1, (detect_encoding detector s).2) from rfl]
    simp only [hrem, show (detect_encoding detector s).1 = detector s.data from
      by simp [detect_encoding, remaining, seek0], h]
  · simp only [safe_read_csv]
    rw [show detect_encoding detector s =
      ((detect_encoding detector s).1, (detect_encoding detector s).2) from rfl]
    simp only [hrem, show (detect_encoding detector s).1 = detector s.data from
      by simp [detect_encoding, remaining, seek0], h1]
    simpa [remaining, seek0, detect_encoding] using h2
  · simp only [safe_read_csv]
    rw [show detect_encoding detector s =
      ((detect_encoding detector s).1, (detect_encoding detector s).2) from rfl]
    simp only [hrem, show (detect_encoding detector s).1 = detector s.data from
      by simp [detect_encoding, remaining, seek0], h1]
    simpa [remaining, seek0, detect_encoding] using h2
  · simp [loadTables, h]
  · simp [loadTables, h1, h2]
  · rw [loadTables] at h
    rcases hr : safe_read_csv detector read_csv race with e | a
    · rw [hr] at h; exact absurd h (by simp)
    · rw [hr] at h
      rcases ht : safe_read_csv detector read_csv rate with e | b
      · rw [ht] at h; exact absurd h (by simp)
      · rw [ht] at h
        simp only [Except.ok.injEq] at h
        rw [← h]
        exact ⟨rfl, rfl⟩

theorem safe_read_csv_spec_witness :
    (fun (sep : String) (d : List Nat) =>
        if sep = "," then (Except.error "comma failed" : Except String Nat)
        else Except.ok d.length) "," [1, 2, 3] = Except.error "comma failed" ∧
    (fun (sep : String) (d : List Nat) =>
        if sep = "," then (Except.error "comma failed" : Except String Nat)
        else Except.ok d.length) "\t" [1, 2, 3] = Except.ok 3 ∧
    safe_read_csv (fun _ => "utf-8")
      (fun _ sep d =>
        if sep = "," then (Except.error "comma failed" : Except String Nat)
        else Except.ok d.length)
      ⟨[1, 2, 3], 2⟩ = Except.ok 3 := by
  refine ⟨rfl, rfl, ?_⟩
  exact ((safe_read_csv_spec (fun _ => "utf-8")
    (fun _ sep d =>
      if sep = "," then (Except.error "comma failed" : Except String Nat)
      else Except.ok d.length)
    ⟨[1, 2, 3], 2⟩ ⟨[], 0⟩ ⟨[], 0⟩).2.2.1) "comma failed" 3 rfl rfl

/-! ### Header checks (umami.py lines 61-72) -/

/-- Outcome of a pipeline stage: success, a user-facing error shown via
`st.error` followed by `st.stop()`, or an unhandled Python exception
(the surrounding `try` covers only the two `safe_read_csv` calls). -/
inductive StepResult (α : Type) where
  | ok (a : α)
  | userError (msg : String)
  | crash (exn : String)
deriving DecidableEq, Repr

/-- The column checks the pipeline performs after loading, in code
order: the odds-alias scan (lines 61-65, `st.error`/`st.stop` when no
alias matches), then `rate_df.set_index("馬名")["複勝率"]` (line 69,
`KeyError` when the rate table lacks either column), then
`df["馬名"].map(...)` (line 72, `KeyError` when the race table lacks a
name column). -/
def headerStage (raceCols rateCols : List String) : StepResult String :=
  match findOddsCol raceCols with
  | none =>
    .userError "⚠️ 出走表に『オッズ』または『単勝』というカラムが見つかりません。"
  | some c =>
    if "馬名" ∈ rateCols then
      if "複勝率" ∈ rateCols then
        if "馬名" ∈ raceCols then .ok c
        else .crash "KeyError: 馬名"
      else .crash "KeyError: 複勝率"
    else .crash "KeyError: 馬名"

/-- C9 counterexample: a race table whose only column is the odds column
(no entrant-name column) and a well-formed rate table make the pipeline
raise an unhandled `KeyError` — it does not surface any user-facing
missing-column error. -/
theorem headerStage_missing_name_crashes :
    headerStage ["オッズ"] ["馬名", "複勝率"] = .crash "KeyError: 馬名" ∧
    (∀ msg, headerStage ["オッズ"] ["馬名", "複勝率"] ≠ .userError msg) := by
  constructor
  · rfl
  · intro msg h
    rw [show headerStage ["オッズ"] ["馬名", "複勝率"] =
      .crash "KeyError: 馬名" from rfl] at h
    exact absurd h (by simp)

/-- C9 amended: only the odds column is guarded by a user-facing error;
when the odds column is present, a missing entrant-name (or place-rate)
column in either table makes the pipeline terminate with an unhandled
`KeyError` instead of a user-facing missing-column error. -/
theorem headerStage_spec (raceCols rateCols : List String) :
    (findOddsCol raceCols = none →
      headerStage raceCols rateCols =
        .userError "⚠️ 出走表に『オッズ』または『単勝』というカラムが見つかりません。") ∧
    (∀ c, findOddsCol raceCols = some c → "馬名" ∉ rateCols →
      headerStage raceCols rateCols = .crash "KeyError: 馬名") ∧
    (∀ c, findOddsCol raceCols = some c → "馬名" ∈ rateCols →
      "複勝率" ∉ rateCols →
      headerStage raceCols rateCols = .crash "KeyError: 複勝率") ∧
    (∀ c, findOddsCol raceCols = some c → "馬名" ∈ rateCols →
      "複勝率" ∈ rateCols → "馬名" ∉ raceCols →
      headerStage raceCols rateCols = .crash "KeyError: 馬名") ∧
    (∀ c, findOddsCol raceCols = some c → "馬名" ∈ rateCols →
      "複勝率" ∈ rateCols → "馬名" ∈ raceCols →
      headerStage raceCols rateCols = .ok c) := by
  refine ⟨fun h => by simp [headerStage, h],
    fun c hc h => by simp [headerStage, hc, h],
    fun c hc h1 h2 => by simp [headerStage, hc, h1, h2],
    fun c hc h1 h2 h3 => by simp [headerStage, hc, h1, h2, h3],
    fun c hc h1 h2 h3 => by simp [headerStage, hc, h1, h2, h3]⟩

theorem headerStage_spec_witness :
    (findOddsCol ["馬名"] = none ∧
      headerStage ["馬名"] ["馬名", "複勝率"] =
        .userError "⚠️ 出走表に『オッズ』または『単勝』というカラムが見つかりません。") ∧
    (findOddsCol ["馬名", "単勝"] = some "単勝" ∧
      "馬名" ∉ (["複勝率"] : List String) ∧
      headerStage ["馬名", "単勝"] ["複勝率"] = .crash "KeyError: 馬名") := by
  have h1 := (headerStage_spec ["馬名"] ["馬名", "複勝率"]).1 rfl
  have h2 := (headerStage_spec ["馬名", "単勝"] ["複勝率"]).2.1 "単勝" rfl
    (by decide)
  exact ⟨⟨rfl, h1⟩, ⟨rfl, by decide, h2⟩⟩

/-! ### Top-level control flow (umami.py lines 52, 157-187)

The script's outline is `if race_file and rate_file: ...` followed by a
separate top-level `if "馬連" in ticket_types or "ワイド" in
ticket_types: ... else: st.info(...)`.  The pair block reads `df`, a
name bound only inside the upload guard. -/

/-- What a run of the script displays, and whether it dies with a
`NameError` on the unbound `df`. -/
structure RunOutcome where
  mainShown : Bool
  pairShown : Bool
  infoShown : Bool
  nameErr : Bool
deriving DecidableEq, Repr

/-- The script's top-level branching: the upload guard (line 52) shows
the main tables; the pair guard (line 158) runs whenever a paired bet
type is selected — touching `df` (line 160), which is unbound when the
uploads are missing — and its `else` (lines 186-187) shows the
"upload both files" prompt. -/
def script (uploaded pairSelected : Bool) : RunOutcome :=
  if pairSelected then
    if uploaded then
      { mainShown := uploaded, pairShown := true, infoShown := false,
        nameErr := false }
    else
      { mainShown := false, pairShown := false, infoShown := false,
        nameErr := true }
  else
    { mainShown := uploaded, pairShown := false, infoShown := true,
      nameErr := false }

/-- C10: selecting a paired bet type without both files uploaded makes
the script hit the unbound race-table name and die with a `NameError`
instead of aborting gracefully, and the "please upload both files"
prompt is shown exactly when no paired bet type is selected (even when
both files are uploaded). -/
theorem script_pair_guard_flow :
    (script false true).nameErr = true ∧
    (script false true).infoShown = false ∧
    (∀ u p, (script u p).infoShown = !p) ∧
    (script true false).infoShown = true := by
  refine ⟨rfl, rfl, fun u p => ?_, rfl⟩
  cases u <;> cases p <;> rfl

end Umami
